import Mathlib

/-!
Shallow embedding of `src/app.py`, an IIIF tile downloader and stitcher:
the app validates an image identifier, fetches IIIF metadata, plans a grid
of tiles, fetches each tile with retry, pastes the decoded tiles onto a
canvas, saves the result, and publishes progress records keyed by session.

Network, PIL decoding and the filesystem are modelled as explicit
environment parameters; machine-level details (wall-clock timestamps,
float progress arithmetic, Unicode contents of exception strings) are
modelled by exact rationals, `Nat` tags and opaque strings respectively.
-/

namespace App

/-! ### Identifier validation (src/app.py lines 79 and 162)

Identifiers are modelled as lists of characters. Python's `str.isalnum`
is Unicode-aware; all identifiers considered in this development are
ASCII, where Python's `isalnum` and Lean's `Char.isAlphanum` agree. -/

/-- Python `s.isalnum()`: `s` is nonempty and every character of `s` is
alphanumeric. -/
def pyIsAlnum (s : List Char) : Bool :=
  !s.isEmpty && s.all Char.isAlphanum

/-- The intake check of `start_download` (src/app.py lines 159-163) on the
already-stripped identifier: the identifier must be nonempty (line 159),
and must not contain `/` or `\` and must satisfy
`image_id.replace('_', '').replace('-', '').isalnum()` (line 162); the two
`replace` calls delete every underscore and hyphen, i.e. filter them out. -/
def start_download_valid (s : List Char) : Bool :=
  !s.isEmpty && !s.contains '/' && !s.contains '\\' &&
    pyIsAlnum (s.filter fun c => !(c == '_') && !(c == '-'))

/-- The check at the start of the background task
`download_and_stitch_image` (src/app.py line 79): the identifier must not
contain `/` or `\` and must satisfy `image_id.isalnum()` (no stripping of
underscores or hyphens here). -/
def background_valid (s : List Char) : Bool :=
  !s.contains '/' && !s.contains '\\' && pyIsAlnum s

/-! ### Tile fetcher (src/app.py `fetch_tile`, lines 40-60) -/

/-- An HTTP response as `fetch_tile` observes it: a status code and the
body bytes (bytes modelled as naturals). -/
structure Response where
  status : Nat
  content : List Nat
deriving DecidableEq

/-- The outcome of one `requests.get` call inside the retry loop: either a
response object was obtained, or a transport-level
`requests.exceptions.RequestException` was raised (the `Nat` tags which
exception instance). -/
inductive Attempt where
  | resp : Response → Attempt
  | exc : Nat → Attempt
deriving DecidableEq

/-- Everything a call of `fetch_tile` can do: return the status-200
response; re-raise the last transport exception (`raise` on the final
attempt); raise an `HTTPError` from `resp.raise_for_status()` carrying the
status; raise the final generic `RequestException` when no response was
ever obtained (reachable only with a zero retry budget); or fall through
`raise_for_status` and return Python `None`, which happens when the last
obtained response has a non-200 status outside the 4xx/5xx range. -/
inductive FetchResult where
  | returned : Response → FetchResult
  | raisedTransport : Nat → FetchResult
  | raisedStatus : Nat → FetchResult
  | raisedNoResponse : FetchResult
  | returnedNone : FetchResult
deriving DecidableEq

/-- `requests.Response.raise_for_status` raises exactly for
400 ≤ status < 600. -/
def isErrorStatus (s : Nat) : Bool :=
  400 ≤ s && s < 600

/-- An attempt the retry loop treats as failed: a response with status
other than 200, or a transport exception. -/
def isFailureAttempt : Attempt → Bool
  | .resp r => !(r.status == 200)
  | .exc _ => true

/-- The retry loop of `fetch_tile` (src/app.py lines 42-60). `stub` gives
the outcome of each remaining attempt of the budget, one entry per
attempt, so the source's `attempt == retries` test is `rest = []` here;
`last` is the `resp` variable, the most recently obtained response.
After the loop (`stub = []`): `resp.raise_for_status()` if a response was
obtained, else the generic final `RequestException`. Returns the result
paired with the number of attempts made. -/
def fetch_tile_go : List Attempt → Option Response → FetchResult × Nat
  | [], none => (.raisedNoResponse, 0)
  | [], some r =>
    if isErrorStatus r.status then (.raisedStatus r.status, 0) else (.returnedNone, 0)
  | .resp r :: rest, _ =>
    if r.status == 200 then (.returned r, 1)
    else
      let res := fetch_tile_go rest (some r)
      (res.1, res.2 + 1)
  | .exc e :: rest, last =>
    if rest.isEmpty then (.raisedTransport e, 1)
    else
      let res := fetch_tile_go rest last
      (res.1, res.2 + 1)

/-- `fetch_tile` with retry budget `stub.length` (the source's only call
site uses the default budget of 3, i.e. a three-entry stub). -/
def fetch_tile (stub : List Attempt) : FetchResult × Nat :=
  fetch_tile_go stub none

/-! #### Helper lemmas about the retry loop -/

/-- If every attempt fails and the final attempt raised a transport
exception, the loop re-raises that exception after consuming every
attempt, whatever response may have been obtained earlier. -/
theorem fetch_tile_go_last_exc :
    ∀ (stub : List Attempt) (last : Option Response) (e : Nat),
      (∀ a ∈ stub, isFailureAttempt a = true) →
      stub.getLast? = some (.exc e) →
      fetch_tile_go stub last = (.raisedTransport e, stub.length) := by
  intro stub
  induction stub with
  | nil => intro last e _ hlast; simp at hlast
  | cons a rest ih =>
    intro last e hfail hlast
    match a with
    | .resp r =>
      have hr : isFailureAttempt (Attempt.resp r) = true := hfail _ (by simp)
      simp [isFailureAttempt] at hr
      cases rest with
      | nil => simp [List.getLast?] at hlast
      | cons b bs =>
        have hlast' : (b :: bs).getLast? = some (Attempt.exc e) := by
          simpa using hlast
        have := ih (some r) e (fun x hx => hfail x (by simp [hx])) hlast'
        simp [fetch_tile_go, hr, this]
    | .exc e' =>
      cases rest with
      | nil =>
        simp [List.getLast?] at hlast
        simp [fetch_tile_go, hlast]
      | cons b bs =>
        have hlast' : (b :: bs).getLast? = some (Attempt.exc e) := by
          simpa using hlast
        have := ih last e (fun x hx => hfail x (by simp [hx])) hlast'
        simp [fetch_tile_go, this]

/-- If every attempt fails and the final attempt obtained a response, the
loop falls through to `resp.raise_for_status()` on that response after
consuming every attempt. -/
theorem fetch_tile_go_last_resp :
    ∀ (stub : List Attempt) (last : Option Response) (r : Response),
      (∀ a ∈ stub, isFailureAttempt a = true) →
      stub.getLast? = some (.resp r) →
      fetch_tile_go stub last =
        ((if isErrorStatus r.status then .raisedStatus r.status else .returnedNone),
          stub.length) := by
  intro stub
  induction stub with
  | nil => intro last r _ hlast; simp at hlast
  | cons a rest ih =>
    intro last r hfail hlast
    match a with
    | .resp r' =>
      have hr : isFailureAttempt (Attempt.resp r') = true := hfail _ (by simp)
      simp [isFailureAttempt] at hr
      cases rest with
      | nil =>
        simp [List.getLast?] at hlast
        subst hlast
        simp only [fetch_tile_go, List.length_cons, List.length_nil]
        rw [if_neg (by simpa using hr)]
        split <;> simp
      | cons b bs =>
        have hlast' : (b :: bs).getLast? = some (Attempt.resp r) := by
          simpa using hlast
        have := ih (some r') r (fun x hx => hfail x (by simp [hx])) hlast'
        simp [fetch_tile_go, hr, this]
    | .exc e' =>
      cases rest with
      | nil => simp [List.getLast?] at hlast
      | cons b bs =>
        have hlast' : (b :: bs).getLast? = some (Attempt.resp r) := by
          simpa using hlast
        have := ih last r (fun x hx => hfail x (by simp [hx])) hlast'
        simp [fetch_tile_go, this]

/-- A 200 response is returned the moment it is obtained: failed attempts
before it are consumed, attempts after it are never made. -/
theorem fetch_tile_go_success :
    ∀ (pre : List Attempt) (last : Option Response) (r : Response)
      (rest : List Attempt),
      (∀ a ∈ pre, isFailureAttempt a = true) →
      r.status = 200 →
      fetch_tile_go (pre ++ .resp r :: rest) last = (.returned r, pre.length + 1) := by
  intro pre
  induction pre with
  | nil =>
    intro last r rest _ h200
    simp [fetch_tile_go, h200]
  | cons a pre' ih =>
    intro last r rest hfail h200
    match a with
    | .resp r' =>
      have hr : isFailureAttempt (Attempt.resp r') = true := hfail _ (by simp)
      simp [isFailureAttempt] at hr
      have := ih (some r') r rest (fun x hx => hfail x (by simp [hx])) h200
      simp [fetch_tile_go, hr, this]
    | .exc e =>
      have hne : (pre' ++ Attempt.resp r :: rest).isEmpty = false := by
        cases pre' <;> simp [List.isEmpty]
      have := ih last r rest (fun x hx => hfail x (by simp [hx])) h200
      simp [fetch_tile_go, hne, this]

/-! ### Claims about validation and the tile fetcher -/

/-- C3 (counterexample): the identifier `a_b` is accepted by the intake
check of `start_download` but rejected by the check at the start of the
background task, so the two validation predicates are not identical and
neither equals the spec's single rule. -/
theorem validation_checks_differ_on_underscore :
    start_download_valid ['a', '_', 'b'] = true ∧
    background_valid ['a', '_', 'b'] = false := by
  decide

/-- C3 (amended): the two checks differ. The background check accepts
exactly the nonempty fully-alphanumeric identifiers without path
separators; the intake check additionally tolerates `_` and `-` (requiring
at least one alphanumeric character besides them). Every identifier the
background check accepts is accepted at intake, but not conversely. -/
theorem background_valid_le_start_download_valid (s : List Char)
    (h : background_valid s = true) : start_download_valid s = true := by
  simp only [background_valid, Bool.and_eq_true, Bool.not_eq_true'] at h
  obtain ⟨⟨hs1, hs2⟩, hal⟩ := h
  simp only [pyIsAlnum, Bool.and_eq_true, Bool.not_eq_true'] at hal
  obtain ⟨hne, hall⟩ := hal
  have hfilter : (s.filter fun c => !(c == '_') && !(c == '-')) = s := by
    apply List.filter_eq_self.mpr
    intro c hc
    have hcal : c.isAlphanum = true := List.all_eq_true.mp hall c hc
    simp only [Bool.and_eq_true, Bool.not_eq_true']
    constructor
    · rw [beq_eq_false_iff_ne]
      rintro rfl
      exact absurd hcal (by decide)
    · rw [beq_eq_false_iff_ne]
      rintro rfl
      exact absurd hcal (by decide)
  simp only [start_download_valid, Bool.and_eq_true, Bool.not_eq_true', hfilter]
  exact ⟨⟨⟨hne, hs1⟩, hs2⟩, by simp [pyIsAlnum, hne, hall]⟩

/-- C3 (witness): an identifier accepted by the background check is
accepted at intake. -/
theorem background_valid_le_start_download_valid_witness :
    background_valid ['a', '9'] = true ∧ start_download_valid ['a', '9'] = true :=
  ⟨by decide, background_valid_le_start_download_valid ['a', '9'] (by decide)⟩

/-- C4 (counterexample): with three failing attempts in which the first
obtained a status-500 response and the last raised a transport exception,
`fetch_tile` re-raises the final transport exception rather than surfacing
the failure status of the obtained response, contradicting the claim that
the failure status of the last obtained response is surfaced whenever one
was obtained. -/
theorem fetch_tile_mixed_failure_counterexample :
    fetch_tile [.resp ⟨500, []⟩, .exc 7, .exc 9] = (.raisedTransport 9, 3) ∧
    fetch_tile [.resp ⟨500, []⟩, .exc 7, .exc 9] ≠ (.raisedStatus 500, 3) := by
  decide

/-- C4 (amended): a status-200 response is returned immediately, after
exactly the attempts made so far (a stub failing twice then succeeding
yields the successful response after exactly 3 attempts). If all attempts
of the budget fail, the result comes after exactly `retries` attempts and
is: the re-raised final transport exception whenever the final attempt
raised one (even if an earlier attempt had obtained a response);
otherwise `raise_for_status` on the last obtained response, which raises
its failure status when that status is 4xx/5xx and silently returns
`None` when it is a non-200 status outside that range. -/
theorem fetch_tile_retry_contract :
    (∀ (pre : List Attempt) (r : Response) (rest : List Attempt),
        (∀ a ∈ pre, isFailureAttempt a = true) → r.status = 200 →
        fetch_tile (pre ++ .resp r :: rest) = (.returned r, pre.length + 1)) ∧
    (∀ (stub : List Attempt) (e : Nat),
        (∀ a ∈ stub, isFailureAttempt a = true) →
        stub.getLast? = some (.exc e) →
        fetch_tile stub = (.raisedTransport e, stub.length)) ∧
    (∀ (stub : List Attempt) (r : Response),
        (∀ a ∈ stub, isFailureAttempt a = true) →
        stub.getLast? = some (.resp r) →
        fetch_tile stub =
          ((if isErrorStatus r.status then .raisedStatus r.status else .returnedNone),
            stub.length)) :=
  ⟨fun pre r rest h1 h2 => fetch_tile_go_success pre none r rest h1 h2,
   fun stub e h1 h2 => fetch_tile_go_last_exc stub none e h1 h2,
   fun stub r h1 h2 => fetch_tile_go_last_resp stub none r h1 h2⟩

/-- C4 (witness): a stub that fails twice then succeeds yields the
successful response after exactly 3 attempts. -/
theorem fetch_tile_retry_contract_witness :
    fetch_tile [.exc 1, .resp ⟨404, []⟩, .resp ⟨200, [7]⟩] =
      (.returned ⟨200, [7]⟩, 3) :=
  fetch_tile_retry_contract.1 [.exc 1, .resp ⟨404, []⟩] ⟨200, [7]⟩ [] (by decide) rfl

/-- C9: in a mixed-failure run where at least one attempt obtained an
(unsuccessful) HTTP response but the final attempt raised a transport
exception, `fetch_tile` re-raises that final transport exception: the
last-attempt exception takes precedence over any previously obtained
response's failure status. -/
theorem fetch_tile_last_exception_precedence (stub : List Attempt) (e : Nat)
    (hfail : ∀ a ∈ stub, isFailureAttempt a = true)
    (hlast : stub.getLast? = some (.exc e))
    (_hobtained : ∃ r, Attempt.resp r ∈ stub) :
    fetch_tile stub = (.raisedTransport e, stub.length) :=
  fetch_tile_go_last_exc stub none e hfail hlast

/-- C9 (witness): a 503 response followed by a final transport exception
re-raises the exception after both attempts. -/
theorem fetch_tile_last_exception_precedence_witness :
    fetch_tile [.resp ⟨503, [1]⟩, .exc 2] = (.raisedTransport 2, 2) :=
  fetch_tile_last_exception_precedence [.resp ⟨503, [1]⟩, .exc 2] 2 (by decide)
    (by decide) ⟨⟨503, [1]⟩, by decide⟩

/-! ### Grid planner (src/app.py lines 103-118) -/

/-- `math.ceil(a / b)` on nonnegative integers. The source computes it by
float division and `math.ceil`; the embedding is exact. -/
def ceilDiv (a b : Nat) : Nat :=
  (a + b - 1) / b

/-- The tile the download loop builds for grid cell `(row, col)`
(src/app.py lines 115-118): origin `x = col * tile_width`,
`y = row * tile_height`, extent `w = min(tile_width, width - x)`,
`h = min(tile_height, height - y)`. -/
def tileAt (W H tw th row col : Nat) : Nat × Nat × Nat × Nat :=
  (col * tw, row * th, min tw (W - col * tw), min th (H - row * th))

/-- The full row-major tile plan of the nested loop
`for row in range(rows): for col in range(cols)` with
`cols = ceil(width / tile_width)`, `rows = ceil(height / tile_height)`
(src/app.py lines 103-118). -/
def plan (W H tw th : Nat) : List (Nat × Nat × Nat × Nat) :=
  (List.range (ceilDiv H th)).flatMap fun row =>
    (List.range (ceilDiv W tw)).map fun col => tileAt W H tw th row col

/-- Pixel `(p, q)` lies inside tile `t = (x, y, w, h)`. -/
def inTile (t : Nat × Nat × Nat × Nat) (p q : Nat) : Prop :=
  t.1 ≤ p ∧ p < t.1 + t.2.2.1 ∧ t.2.1 ≤ q ∧ q < t.2.1 + t.2.2.2

theorem ceilDiv_pos_eq {n b : Nat} (hn : 0 < n) (hb : 0 < b) :
    ceilDiv n b = (n - 1) / b + 1 := by
  unfold ceilDiv
  have h : n + b - 1 = (n - 1) + b := by omega
  rw [h, Nat.add_div_right _ hb]

theorem mul_lt_of_lt_ceilDiv {n b c : Nat} (hb : 0 < b) (h : c < ceilDiv n b) :
    c * b < n := by
  rcases Nat.eq_zero_or_pos n with hn | hn
  · subst hn
    have hz : ceilDiv 0 b = 0 := by
      unfold ceilDiv
      exact Nat.div_eq_of_lt (by omega)
    omega
  · rw [ceilDiv_pos_eq hn hb] at h
    have hc : c ≤ (n - 1) / b := Nat.lt_succ_iff.mp h
    have h1 : c * b ≤ (n - 1) / b * b := Nat.mul_le_mul_right b hc
    have h2 : (n - 1) / b * b ≤ n - 1 := Nat.div_mul_le_self _ _
    omega

theorem lt_ceilDiv_of_lt {n b p : Nat} (hb : 0 < b) (hp : p < n) :
    p / b < ceilDiv n b := by
  have hn : 0 < n := by omega
  rw [ceilDiv_pos_eq hn hb]
  have h : p / b ≤ (n - 1) / b := Nat.div_le_div_right (by omega)
  omega

/-- Membership of a coordinate in the half-open interval of one grid cell,
in one dimension: for a cell index below the column count and a coordinate
inside the image, lying in the cell's clipped extent is the same as the
cell index being the coordinate's quotient by the tile size. -/
theorem cell_interval_iff {W tw c p : Nat} (hb : 0 < tw) (hc : c < ceilDiv W tw)
    (hp : p < W) :
    (c * tw ≤ p ∧ p < c * tw + min tw (W - c * tw)) ↔ p / tw = c := by
  have hcw : c * tw < W := mul_lt_of_lt_ceilDiv hb hc
  have hsucc : (c + 1) * tw = c * tw + tw := Nat.succ_mul c tw
  constructor
  · rintro ⟨h1, h2⟩
    exact Nat.div_eq_of_lt_le h1 (by omega)
  · rintro rfl
    have h1 : p / tw * tw ≤ p := Nat.div_mul_le_self p tw
    have h2 : p < tw * (p / tw + 1) := Nat.lt_mul_div_succ p hb
    have h3 : tw * (p / tw + 1) = p / tw * tw + tw := by ring
    omega

theorem mem_plan_iff {W H tw th : Nat} {t : Nat × Nat × Nat × Nat} :
    t ∈ plan W H tw th ↔
      ∃ r, r < ceilDiv H th ∧ ∃ c, c < ceilDiv W tw ∧ t = tileAt W H tw th r c := by
  simp only [plan, List.mem_flatMap, List.mem_map, List.mem_range]
  constructor
  · rintro ⟨r, hr, c, hc, rfl⟩
    exact ⟨r, hr, c, hc, rfl⟩
  · rintro ⟨r, hr, c, hc, rfl⟩
    exact ⟨r, hr, c, hc, rfl⟩

/-- A point of a planned tile lies inside the image rectangle. -/
theorem inTile_lt {W H tw th : Nat} {t : Nat × Nat × Nat × Nat} {p q : Nat}
    (htw : 0 < tw) (hth : 0 < th) (ht : t ∈ plan W H tw th) (h : inTile t p q) :
    p < W ∧ q < H := by
  obtain ⟨r, hr, c, hc, rfl⟩ := mem_plan_iff.mp ht
  obtain ⟨h1, h2, h3, h4⟩ := h
  simp only [tileAt] at h1 h2 h3 h4
  have hcw : c * tw < W := mul_lt_of_lt_ceilDiv htw hc
  have hrh : r * th < H := mul_lt_of_lt_ceilDiv hth hr
  constructor
  · have hm : min tw (W - c * tw) ≤ W - c * tw := Nat.min_le_right _ _
    omega
  · have hm : min th (H - r * th) ≤ H - r * th := Nat.min_le_right _ _
    omega

/-- A point inside the image lies in the planned tile of exactly the grid
cell given by the quotients of its coordinates. -/
theorem inTile_tileAt_iff {W H tw th r c p q : Nat} (htw : 0 < tw) (hth : 0 < th)
    (hr : r < ceilDiv H th) (hc : c < ceilDiv W tw) (hp : p < W) (hq : q < H) :
    inTile (tileAt W H tw th r c) p q ↔ p / tw = c ∧ q / th = r := by
  unfold inTile tileAt
  simp only
  constructor
  · rintro ⟨h1, h2, h3, h4⟩
    exact ⟨(cell_interval_iff htw hc hp).mp ⟨h1, h2⟩,
      (cell_interval_iff hth hr hq).mp ⟨h3, h4⟩⟩
  · rintro ⟨hdc, hdr⟩
    obtain ⟨h1, h2⟩ := (cell_interval_iff htw hc hp).mpr hdc
    obtain ⟨h3, h4⟩ := (cell_interval_iff hth hr hq).mpr hdr
    exact ⟨h1, h2, h3, h4⟩

/-- Two planned tiles sharing a pixel are the same tile. -/
theorem plan_point_unique {W H tw th : Nat} {t1 t2 : Nat × Nat × Nat × Nat}
    {p q : Nat} (htw : 0 < tw) (hth : 0 < th)
    (ht1 : t1 ∈ plan W H tw th) (ht2 : t2 ∈ plan W H tw th)
    (h1 : inTile t1 p q) (h2 : inTile t2 p q) : t1 = t2 := by
  obtain ⟨hp, hq⟩ := inTile_lt htw hth ht1 h1
  obtain ⟨r1, hr1, c1, hc1, rfl⟩ := mem_plan_iff.mp ht1
  obtain ⟨r2, hr2, c2, hc2, rfl⟩ := mem_plan_iff.mp ht2
  obtain ⟨hd1, he1⟩ := (inTile_tileAt_iff htw hth hr1 hc1 hp hq).mp h1
  obtain ⟨hd2, he2⟩ := (inTile_tileAt_iff htw hth hr2 hc2 hp hq).mp h2
  have hcc : c1 = c2 := by omega
  have hrr : r1 = r2 := by omega
  subst hcc
  subst hrr
  rfl

theorem plan_nodup {W H tw th : Nat} (htw : 0 < tw) (hth : 0 < th) :
    (plan W H tw th).Nodup := by
  unfold plan
  rw [List.nodup_flatMap]
  constructor
  · intro r _
    apply List.Nodup.map _ (List.nodup_range _)
    intro c1 c2 hcc
    simp only [tileAt, Prod.mk.injEq] at hcc
    exact Nat.eq_of_mul_eq_mul_right htw hcc.1
  · apply (List.nodup_range _).pairwise_of_forall_ne
    intro r1 _ r2 _ hne
    intro t hmem1 hmem2
    simp only [List.mem_map, List.mem_range] at hmem1 hmem2
    obtain ⟨c1, _, rfl⟩ := hmem1
    obtain ⟨c2, _, heq⟩ := hmem2
    simp only [tileAt, Prod.mk.injEq] at heq
    exact hne (Nat.eq_of_mul_eq_mul_right hth heq.2.1).symm

theorem plan_length (W H tw th : Nat) :
    (plan W H tw th).length = ceilDiv W tw * ceilDiv H th := by
  unfold plan
  rw [List.length_flatMap]
  simp only [Function.comp_def, List.length_map, List.length_range, List.map_const',
    List.sum_replicate, smul_eq_mul]
  exact Nat.mul_comm _ _

/-- C1: for every positive image size and tile size, the planned grid's
rectangles are pairwise disjoint, their union is exactly the image
rectangle `[0, W) × [0, H)`, and there are exactly
`ceil(W / tw) * ceil(H / th)` of them. -/
theorem grid_plan_correct (W H tw th : Nat)
    (_hW : 0 < W) (_hH : 0 < H) (htw : 0 < tw) (hth : 0 < th) :
    List.Pairwise (fun t1 t2 => ∀ p q, ¬(inTile t1 p q ∧ inTile t2 p q))
        (plan W H tw th) ∧
    (∀ p q, (p < W ∧ q < H) ↔ ∃ t ∈ plan W H tw th, inTile t p q) ∧
    (plan W H tw th).length = ceilDiv W tw * ceilDiv H th := by
  refine ⟨?_, ?_, plan_length W H tw th⟩
  · apply (plan_nodup htw hth).pairwise_of_forall_ne
    intro t1 ht1 t2 ht2 hne
    intro p q ⟨h1, h2⟩
    exact hne (plan_point_unique htw hth ht1 ht2 h1 h2)
  · intro p q
    constructor
    · rintro ⟨hp, hq⟩
      refine ⟨tileAt W H tw th (q / th) (p / tw), ?_, ?_⟩
      · exact mem_plan_iff.mpr
          ⟨q / th, lt_ceilDiv_of_lt hth hq, p / tw, lt_ceilDiv_of_lt htw hp, rfl⟩
      · exact (inTile_tileAt_iff htw hth (lt_ceilDiv_of_lt hth hq)
          (lt_ceilDiv_of_lt htw hp) hp hq).mpr ⟨rfl, rfl⟩
    · rintro ⟨t, ht, hin⟩
      exact inTile_lt htw hth ht hin

/-- C1 (witness): the grid plan invariants at a concrete 2-by-2 grid over
a 3-by-2 image with 2-by-1 tiles. -/
theorem grid_plan_correct_witness :
    0 < 3 ∧ 0 < 2 ∧ 0 < 2 ∧ 0 < 1 ∧
      (List.Pairwise (fun t1 t2 => ∀ p q, ¬(inTile t1 p q ∧ inTile t2 p q))
          (plan 3 2 2 1) ∧
        (∀ p q, (p < 3 ∧ q < 2) ↔ ∃ t ∈ plan 3 2 2 1, inTile t p q) ∧
        (plan 3 2 2 1).length = ceilDiv 3 2 * ceilDiv 2 1) :=
  ⟨by decide, by decide, by decide, by decide,
    grid_plan_correct 3 2 2 1 (by decide) (by decide) (by decide) (by decide)⟩

/-! ### Progress tracker and session orchestrator (src/app.py lines 62-146)

The wall-clock `timestamp` field written by `update_progress` is not
modelled. Progress percentages, float-valued in the source, are modelled
as exact rationals. -/

/-- One progress snapshot, as stored in `download_progress[session_id]`. -/
structure ProgressRecord where
  message : String
  progress : Option ℚ
  error : Option String
  completed : Bool
  file_path : Option String
deriving DecidableEq

/-- `update_progress` (src/app.py lines 62-71) builds the fresh snapshot
that replaces the session's record. The Python defaults are
`progress=None, error=None, completed=False, file_path=None`; every call
site below spells them out. -/
def update_progress (message : String) (progress : Option ℚ) (error : Option String)
    (completed : Bool) (file_path : Option String) : ProgressRecord :=
  ⟨message, progress, error, completed, file_path⟩

/-- The record written at line 76, before validation and the metadata
request. -/
def fetchingRecord : ProgressRecord :=
  update_progress "Fetching image metadata..." (some 0) none false none

/-- The terminal record of the invalid-identifier branch (line 80). -/
def invalidIdRecord : ProgressRecord :=
  update_progress "Invalid image ID" none
    (some "Please provide a valid alphanumeric IIIF image ID") false none

/-- The terminal record of the `requests.exceptions.RequestException`
handler (line 143); `e` stands for `str(e)` of the caught exception. -/
def netErrorRecord (e : String) : ProgressRecord :=
  update_progress "Network error occurred" none
    (some ("Failed to download image: " ++ e)) false none

/-- The terminal record of the generic exception handler (line 146). -/
def genErrorRecord (e : String) : ProgressRecord :=
  update_progress "An error occurred" none
    (some ("Unexpected error: " ++ e)) false none

/-- The record written at line 107 after metadata success: image
dimensions and total tile count in the message, progress 5. -/
def sizeRecord (W H total : Nat) : ProgressRecord :=
  update_progress
    ("Image size: " ++ toString W ++ "x" ++ toString H ++ ", downloading "
      ++ toString total ++ " tiles...")
    (some 5) none false none

/-- The record written at line 132 after tile `k` of `total` (1-based):
progress `5 + (k / total) * 85`. -/
def tileRecord (k total : Nat) : ProgressRecord :=
  update_progress ("Downloaded tile " ++ toString k ++ "/" ++ toString total)
    (some (5 + ((k : ℚ) / (total : ℚ)) * 85)) none false none

/-- The record written at line 134 before saving. -/
def savingRecord : ProgressRecord :=
  update_progress "Saving final image..." (some 95) none false none

/-- The terminal record of a successful session (line 139). -/
def doneRecord (path : String) : ProgressRecord :=
  update_progress "Image ready for download!" (some 100) none true (some path)

/-- The output path of line 89,
`os.path.join(downloads_dir, image_id + "_stitched.jpg")`, with the
process working directory elided. -/
def output_file (image_id : List Char) : String :=
  "downloads/" ++ String.mk image_id ++ "_stitched.jpg"

/-- The outcome of the metadata request and parse (src/app.py lines
95-101): on success the four dimensions
`(width, height, tile_width, tile_height)`, with the
tile-height-defaults-to-tile-width fallback of line 101 already applied;
`netFail` when `requests.get` or `raise_for_status` raised a
`RequestException`; `parseFail` when `.json()` or a key lookup raised
some other exception. -/
inductive MetaResult where
  | ok : Nat → Nat → Nat → Nat → MetaResult
  | netFail : MetaResult
  | parseFail : MetaResult

/-- The environment a session runs against (the remote server, PIL and
the filesystem). `fetch k` is the outcome of the `fetch_tile` call for
the `k`-th planned tile (0-based): `none` when it raised, `some none`
when it returned Python `None`, `some (some bs)` when it returned a
status-200 response with body bytes `bs`. `decode bs` models PIL
`Image.open`: the decoded image's dimensions, or `none` when decoding
raised. `saveOk` tells whether `final_img.save` succeeded. `excStr`
stands for `str(e)` of whichever exception a failing branch caught. -/
structure Env where
  meta : MetaResult
  fetch : Nat → Option (Option (List Nat))
  decode : List Nat → Option (Nat × Nat)
  saveOk : Bool
  excStr : String

/-- Tile `k`'s fetch returned a response with a nonempty body that
decodes. -/
def tileOk (env : Env) (k : Nat) : Bool :=
  match env.fetch k with
  | some (some bs) => !bs.isEmpty && (env.decode bs).isSome
  | _ => false

/-- The per-tile download loop (src/app.py lines 113-132) over the
remaining planned tiles, with `k` tiles already done. Fetch the tile; a
raised exception, a `None` response or an empty body aborts the session
via the `RequestException` handler; an undecodable body aborts via the
generic handler; otherwise the decoded image is pasted at the tile's
origin with its own decoded extent — the source compares no dimensions —
and the tile's progress record is written. Returns the records written,
the pastes performed as `(x, y, decoded width, decoded height)`, and
whether the loop ran to completion. -/
def tile_loop (env : Env) (total : Nat) :
    List (Nat × Nat × Nat × Nat) → Nat →
      List ProgressRecord × List (Nat × Nat × Nat × Nat) × Bool
  | [], _ => ([], [], true)
  | t :: rest, k =>
    match env.fetch k with
    | none => ([netErrorRecord env.excStr], [], false)
    | some none => ([netErrorRecord env.excStr], [], false)
    | some (some bs) =>
      if bs.isEmpty then ([netErrorRecord env.excStr], [], false)
      else
        match env.decode bs with
        | none => ([genErrorRecord env.excStr], [], false)
        | some d =>
          let res := tile_loop env total rest (k + 1)
          (tileRecord (k + 1) total :: res.1,
            (t.1, t.2.1, d.1, d.2) :: res.2.1, res.2.2)

/-- The background task `download_and_stitch_image` (src/app.py lines
73-146): the ordered sequence of progress records written for the
session, paired with the pastes performed on the canvas. A zero
`tile_width` or `tile_height` makes the division at lines 103-104 raise
`ZeroDivisionError`, caught by the generic handler. -/
def download_and_stitch_image (image_id : List Char) (env : Env) :
    List ProgressRecord × List (Nat × Nat × Nat × Nat) :=
  if background_valid image_id = false then
    ([fetchingRecord, invalidIdRecord], [])
  else
    match env.meta with
    | .netFail => ([fetchingRecord, netErrorRecord env.excStr], [])
    | .parseFail => ([fetchingRecord, genErrorRecord env.excStr], [])
    | .ok W H tw th =>
      if tw = 0 ∨ th = 0 then ([fetchingRecord, genErrorRecord env.excStr], [])
      else
        let total := ceilDiv W tw * ceilDiv H th
        let res := tile_loop env total (plan W H tw th) 0
        if res.2.2 then
          if env.saveOk then
            ([fetchingRecord, sizeRecord W H total] ++ res.1
              ++ [savingRecord, doneRecord (output_file image_id)], res.2.1)
          else
            ([fetchingRecord, sizeRecord W H total] ++ res.1
              ++ [savingRecord, genErrorRecord env.excStr], res.2.1)
        else
          ([fetchingRecord, sizeRecord W H total] ++ res.1, res.2.1)

/-! #### Behaviour of the per-tile loop -/

theorem map_tileRecord_range_succ (total m n : Nat) :
    (List.range (n + 1)).map (fun i => tileRecord (m + 1 + i) total) =
      tileRecord (m + 1) total ::
        (List.range n).map (fun i => tileRecord (m + 1 + 1 + i) total) := by
  rw [List.range_succ_eq_map, List.map_cons, List.map_map]
  congr 1
  apply List.map_congr_left
  intro i _
  simp only [Function.comp_apply]
  congr 1
  omega

/-- When every remaining tile fetches and decodes, the loop writes one
tile record per tile, in order, and completes. -/
theorem tile_loop_success (env : Env) (total : Nat) :
    ∀ (tiles : List (Nat × Nat × Nat × Nat)) (k : Nat),
      (∀ i, k ≤ i → i < k + tiles.length → tileOk env i = true) →
      (tile_loop env total tiles k).1 =
          (List.range tiles.length).map (fun i => tileRecord (k + 1 + i) total) ∧
        (tile_loop env total tiles k).2.2 = true := by
  intro tiles
  induction tiles with
  | nil => intro k _; exact ⟨rfl, rfl⟩
  | cons t rest ih =>
    intro k hok
    have hk : tileOk env k = true := hok k le_rfl (by simp)
    unfold tileOk at hk
    cases hf : env.fetch k with
    | none => rw [hf] at hk; simp at hk
    | some o =>
      cases o with
      | none => rw [hf] at hk; simp at hk
      | some bs =>
        rw [hf] at hk
        simp only [Bool.and_eq_true, Bool.not_eq_true'] at hk
        obtain ⟨hbs, hdec⟩ := hk
        cases hd : env.decode bs with
        | none => rw [hd] at hdec; simp at hdec
        | some d =>
          obtain ⟨ih1, ih2⟩ := ih (k + 1)
            (fun i h1 h2 => hok i (by omega) (by simp only [List.length_cons]; omega))
          constructor
          · simp only [tile_loop, hf, hbs, hd, List.length_cons, Bool.false_eq_true,
              if_false]
            rw [map_tileRecord_range_succ, ih1]
          · simp only [tile_loop, hf, hbs, hd, Bool.false_eq_true, if_false]
            exact ih2

/-- Every run of the loop either completes, writing one record per tile,
or stops at the first bad tile: the records written are those of the
tiles done so far followed by a single error record.  -/
theorem tile_loop_shape (env : Env) (total : Nat) :
    ∀ (tiles : List (Nat × Nat × Nat × Nat)) (k : Nat),
      ((tile_loop env total tiles k).1 =
          (List.range tiles.length).map (fun i => tileRecord (k + 1 + i) total) ∧
        (tile_loop env total tiles k).2.2 = true) ∨
      (∃ m e, m ≤ tiles.length ∧
        (e = netErrorRecord env.excStr ∨ e = genErrorRecord env.excStr) ∧
        (tile_loop env total tiles k).1 =
          (List.range m).map (fun i => tileRecord (k + 1 + i) total) ++ [e] ∧
        (tile_loop env total tiles k).2.2 = false) := by
  intro tiles
  induction tiles with
  | nil => intro k; left; exact ⟨rfl, rfl⟩
  | cons t rest ih =>
    intro k
    cases hf : env.fetch k with
    | none =>
      right
      exact ⟨0, netErrorRecord env.excStr, Nat.zero_le _, Or.inl rfl,
        by simp [tile_loop, hf], by simp [tile_loop, hf]⟩
    | some o =>
      cases o with
      | none =>
        right
        exact ⟨0, netErrorRecord env.excStr, Nat.zero_le _, Or.inl rfl,
          by simp [tile_loop, hf], by simp [tile_loop, hf]⟩
      | some bs =>
        cases hbs : bs.isEmpty with
        | true =>
          right
          exact ⟨0, netErrorRecord env.excStr, Nat.zero_le _, Or.inl rfl,
            by simp [tile_loop, hf, hbs], by simp [tile_loop, hf, hbs]⟩
        | false =>
          cases hd : env.decode bs with
          | none =>
            right
            exact ⟨0, genErrorRecord env.excStr, Nat.zero_le _, Or.inr rfl,
              by simp [tile_loop, hf, hbs, hd], by simp [tile_loop, hf, hbs, hd]⟩
          | some d =>
            rcases ih (k + 1) with ⟨ih1, ih2⟩ | ⟨m, e, hm, he, ih1, ih2⟩
            · left
              constructor
              · simp only [tile_loop, hf, hbs, hd, List.length_cons, Bool.false_eq_true,
                  if_false]
                rw [map_tileRecord_range_succ, ih1]
              · simp only [tile_loop, hf, hbs, hd, Bool.false_eq_true, if_false]
                exact ih2
            · right
              refine ⟨m + 1, e, by simp only [List.length_cons]; omega, he, ?_, ?_⟩
              · simp only [tile_loop, hf, hbs, hd, Bool.false_eq_true, if_false]
                rw [ih1, map_tileRecord_range_succ, List.cons_append]
              · simp only [tile_loop, hf, hbs, hd, Bool.false_eq_true, if_false]
                exact ih2

/-- A tile whose fetch returns a success response with an empty body makes
the loop raise (line 128): the session aborts through the
`RequestException` handler and nothing is pasted for that tile. -/
theorem tile_loop_empty_body (env : Env) (total k : Nat)
    (t : Nat × Nat × Nat × Nat) (rest : List (Nat × Nat × Nat × Nat))
    (hf : env.fetch k = some (some ([] : List Nat))) :
    tile_loop env total (t :: rest) k = ([netErrorRecord env.excStr], [], false) := by
  simp [tile_loop, hf]

/-! #### Top-level session traces -/

/-- C5: in a successful session — valid identifier, metadata success,
positive tile sizes, every tile fetched and decoded, save succeeded — the
records written are exactly: "fetching metadata" at progress 0, the
image-size/tile-count message at 5, one record at `5 + (k / total) * 85`
after the `k`-th tile for each of the `total` tiles in order, "saving" at
95, and the completed record at 100 carrying the artifact path. -/
theorem progress_checkpoints (id : List Char) (env : Env) (W H tw th : Nat)
    (hid : background_valid id = true)
    (hmeta : env.meta = .ok W H tw th)
    (htw : 0 < tw) (hth : 0 < th)
    (hfetch : ∀ k, k < ceilDiv W tw * ceilDiv H th → tileOk env k = true)
    (hsave : env.saveOk = true) :
    (download_and_stitch_image id env).1 =
      [fetchingRecord, sizeRecord W H (ceilDiv W tw * ceilDiv H th)] ++
        (List.range (ceilDiv W tw * ceilDiv H th)).map
          (fun k => tileRecord (k + 1) (ceilDiv W tw * ceilDiv H th)) ++
        [savingRecord, doneRecord (output_file id)] := by
  obtain ⟨h1, h2⟩ := tile_loop_success env (ceilDiv W tw * ceilDiv H th)
    (plan W H tw th) 0
    (fun i _ hi => hfetch i (by rw [plan_length] at hi; omega))
  have hz : ¬(tw = 0 ∨ th = 0) := by omega
  simp only [download_and_stitch_image, hid, Bool.true_eq_false, if_false, hmeta,
    if_neg hz, h2, if_true, hsave]
  rw [h1, plan_length]
  congr 2
  apply List.map_congr_left
  intro i _
  congr 1
  omega

/-- A successful concrete environment: a 2-by-1 image with 1-by-1 tiles,
every tile a decodable one-byte body. -/
def envAllOk : Env :=
  { meta := .ok 2 1 1 1
    fetch := fun _ => some (some [0])
    decode := fun _ => some (1, 1)
    saveOk := true
    excStr := "e" }

/-- C5 (witness): the checkpoint sequence of a concrete successful
two-tile session. -/
theorem progress_checkpoints_witness :
    (download_and_stitch_image ['a'] envAllOk).1 =
      [fetchingRecord, sizeRecord 2 1 (ceilDiv 2 1 * ceilDiv 1 1)] ++
        (List.range (ceilDiv 2 1 * ceilDiv 1 1)).map
          (fun k => tileRecord (k + 1) (ceilDiv 2 1 * ceilDiv 1 1)) ++
        [savingRecord, doneRecord (output_file ['a'])] :=
  progress_checkpoints ['a'] envAllOk 2 1 1 1 (by decide) rfl (by decide) (by decide)
    (fun _ _ => rfl) rfl

/-- Every session trace has one of three forms: the two-record form (the
pre-validation record plus one terminal record), the aborted-download
form (prefix, size record, the records of the tiles done, one terminal
error record), or the full form (all tile records, the saving record and
either the completed record or the save-failure record). -/
theorem trace_cases (id : List Char) (env : Env) :
    ∃ (W H total m : Nat) (last : ProgressRecord),
      m ≤ total ∧
      (((download_and_stitch_image id env).1 = [fetchingRecord, last] ∧
          (last = invalidIdRecord ∨ last = netErrorRecord env.excStr ∨
            last = genErrorRecord env.excStr)) ∨
        ((download_and_stitch_image id env).1 =
            [fetchingRecord, sizeRecord W H total] ++
              (List.range m).map (fun i => tileRecord (0 + 1 + i) total) ++ [last] ∧
          (last = netErrorRecord env.excStr ∨ last = genErrorRecord env.excStr)) ∨
        ((download_and_stitch_image id env).1 =
            [fetchingRecord, sizeRecord W H total] ++
              (List.range total).map (fun i => tileRecord (0 + 1 + i) total) ++
              [savingRecord, last] ∧
          (last = doneRecord (output_file id) ∨ last = genErrorRecord env.excStr))) := by
  by_cases hid : background_valid id = false
  · exact ⟨0, 0, 0, 0, invalidIdRecord, le_rfl,
      Or.inl ⟨by simp [download_and_stitch_image, hid], Or.inl rfl⟩⟩
  · cases hmeta : env.meta with
    | netFail =>
      exact ⟨0, 0, 0, 0, netErrorRecord env.excStr, le_rfl,
        Or.inl ⟨by simp [download_and_stitch_image, hid, hmeta], Or.inr (Or.inl rfl)⟩⟩
    | parseFail =>
      exact ⟨0, 0, 0, 0, genErrorRecord env.excStr, le_rfl,
        Or.inl ⟨by simp [download_and_stitch_image, hid, hmeta], Or.inr (Or.inr rfl)⟩⟩
    | ok W H tw th =>
      by_cases hz : tw = 0 ∨ th = 0
      · exact ⟨0, 0, 0, 0, genErrorRecord env.excStr, le_rfl,
          Or.inl ⟨by simp [download_and_stitch_image, hid, hmeta, hz],
            Or.inr (Or.inr rfl)⟩⟩
      · rcases tile_loop_shape env (ceilDiv W tw * ceilDiv H th) (plan W H tw th) 0
          with ⟨h1, h2⟩ | ⟨m, e, hm, he, h1, h2⟩
        · by_cases hs : env.saveOk = true
          · refine ⟨W, H, ceilDiv W tw * ceilDiv H th, ceilDiv W tw * ceilDiv H th,
              doneRecord (output_file id), le_rfl, Or.inr (Or.inr ⟨?_, Or.inl rfl⟩)⟩
            simp only [download_and_stitch_image, hid, Bool.true_eq_false, if_false,
              hmeta, if_neg hz, h2, if_true, hs]
            rw [h1, plan_length]
          · refine ⟨W, H, ceilDiv W tw * ceilDiv H th, ceilDiv W tw * ceilDiv H th,
              genErrorRecord env.excStr, le_rfl, Or.inr (Or.inr ⟨?_, Or.inr rfl⟩)⟩
            have hs' : env.saveOk = false := by
              cases h : env.saveOk
              · rfl
              · exact absurd h hs
            simp only [download_and_stitch_image, hid, Bool.true_eq_false, if_false,
              hmeta, if_neg hz, h2, if_true, hs', Bool.false_eq_true]
            rw [h1, plan_length]
        · refine ⟨W, H, ceilDiv W tw * ceilDiv H th, m,
            e, by rw [plan_length] at hm; exact hm, Or.inr (Or.inl ⟨?_, he⟩)⟩
          simp only [download_and_stitch_image, hid, Bool.true_eq_false, if_false,
            hmeta, if_neg hz, h2, Bool.false_eq_true, if_false]
          rw [h1, ← List.append_assoc]

/-! #### Progress monotonicity -/

/-- The sequence of progress percentages present in a list of records. -/
def progressValues (rs : List ProgressRecord) : List ℚ :=
  rs.filterMap fun r => r.progress

theorem progressValues_tileRecords (total m c : Nat) :
    progressValues ((List.range m).map fun i => tileRecord (c + i) total) =
      (List.range m).map fun i =>
        (5 : ℚ) + (((c + i : Nat) : ℚ) / (total : ℚ)) * 85 := by
  unfold progressValues
  rw [List.filterMap_map]
  exact congrFun
    (List.filterMap_eq_map fun i =>
      (5 : ℚ) + (((c + i : Nat) : ℚ) / (total : ℚ)) * 85) _

/-- A progress-value list of the common trace shape is non-decreasing,
provided its tail is non-decreasing and at least 90. -/
theorem progress_master_sorted (total m : Nat) (hm : m ≤ total) (tail : List ℚ)
    (htail1 : List.Pairwise (· ≤ ·) tail) (htail2 : ∀ b ∈ tail, (90 : ℚ) ≤ b) :
    List.Pairwise (· ≤ ·)
      ((0 : ℚ) :: (5 : ℚ) ::
        (((List.range m).map fun i =>
            (5 : ℚ) + (((0 + 1 + i : Nat) : ℚ) / (total : ℚ)) * 85) ++ tail)) := by
  have hval : ∀ i, i < m →
      (5 : ℚ) ≤ 5 + (((0 + 1 + i : Nat) : ℚ) / (total : ℚ)) * 85 ∧
        5 + (((0 + 1 + i : Nat) : ℚ) / (total : ℚ)) * 85 ≤ 90 := by
    intro i hi
    have htot : (0 : ℚ) < (total : ℚ) := by exact_mod_cast (by omega : 0 < total)
    have hle : ((0 + 1 + i : Nat) : ℚ) ≤ (total : ℚ) := by
      exact_mod_cast (by omega : 0 + 1 + i ≤ total)
    have hd0 : (0 : ℚ) ≤ ((0 + 1 + i : Nat) : ℚ) / (total : ℚ) := by positivity
    have hd1 : ((0 + 1 + i : Nat) : ℚ) / (total : ℚ) ≤ 1 := by
      rw [div_le_one htot]
      exact hle
    constructor <;> nlinarith [hd0, hd1]
  refine List.pairwise_cons.mpr ⟨?_, List.pairwise_cons.mpr ⟨?_, ?_⟩⟩
  · intro b hb
    simp only [List.mem_cons, List.mem_append, List.mem_map, List.mem_range] at hb
    rcases hb with rfl | ⟨i, hi, rfl⟩ | hb
    · norm_num
    · linarith [(hval i hi).1]
    · linarith [htail2 b hb]
  · intro b hb
    simp only [List.mem_append, List.mem_map, List.mem_range] at hb
    rcases hb with ⟨i, hi, rfl⟩ | hb
    · exact (hval i hi).1
    · linarith [htail2 b hb]
  · rw [List.pairwise_append]
    refine ⟨?_, htail1, ?_⟩
    · rw [List.pairwise_map]
      refine (List.pairwise_lt_range m).imp ?_
      intro i j hij
      have hmono : ((0 + 1 + i : Nat) : ℚ) ≤ ((0 + 1 + j : Nat) : ℚ) := by
        exact_mod_cast (by omega : 0 + 1 + i ≤ 0 + 1 + j)
      have htot : (0 : ℚ) ≤ (total : ℚ) := by positivity
      have hdiv := div_le_div_of_nonneg_right hmono htot
      linarith
    · intro a ha b hb
      simp only [List.mem_map, List.mem_range] at ha
      obtain ⟨i, hi, rfl⟩ := ha
      linarith [(hval i hi).2, htail2 b hb]

/-- The progress values and any suffix of a download-phase trace. -/
theorem progressValues_trace_shape (W H total m : Nat)
    (suffix : List ProgressRecord) :
    progressValues ([fetchingRecord, sizeRecord W H total] ++
        (List.range m).map (fun i => tileRecord (0 + 1 + i) total) ++ suffix) =
      (0 : ℚ) :: (5 : ℚ) ::
        (((List.range m).map fun i =>
            (5 : ℚ) + (((0 + 1 + i : Nat) : ℚ) / (total : ℚ)) * 85) ++
          progressValues suffix) := by
  unfold progressValues
  rw [List.filterMap_append, List.filterMap_append]
  have h := progressValues_tileRecords total m (0 + 1)
  unfold progressValues at h
  rw [h]
  rfl

/-- Every session trace is a list of non-terminal records followed by one
terminal record. -/
theorem trace_split (id : List Char) (env : Env) :
    ∃ (L : List ProgressRecord) (last : ProgressRecord),
      (download_and_stitch_image id env).1 = L ++ [last] ∧
      (∀ r ∈ L, r.completed = false ∧ r.error = none) ∧
      (last = invalidIdRecord ∨ last = netErrorRecord env.excStr ∨
        last = genErrorRecord env.excStr ∨ last = doneRecord (output_file id)) := by
  obtain ⟨W, H, total, m, last, hm, hcase⟩ := trace_cases id env
  rcases hcase with ⟨htr, hl⟩ | ⟨htr, hl⟩ | ⟨htr, hl⟩
  · refine ⟨[fetchingRecord], last, by simpa using htr, ?_, ?_⟩
    · intro r hr
      have hrf : r = fetchingRecord := by simpa using hr
      subst hrf
      exact ⟨rfl, rfl⟩
    · tauto
  · refine ⟨[fetchingRecord, sizeRecord W H total] ++
        (List.range m).map (fun i => tileRecord (0 + 1 + i) total), last,
      by rw [htr], ?_, ?_⟩
    · intro r hr
      rcases List.mem_append.mp hr with h2 | h2
      · rcases (by simpa using h2 : r = fetchingRecord ∨ r = sizeRecord W H total)
          with rfl | rfl
        · exact ⟨rfl, rfl⟩
        · exact ⟨rfl, rfl⟩
      · simp only [List.mem_map, List.mem_range] at h2
        obtain ⟨i, _, hfi⟩ := h2
        subst hfi
        exact ⟨rfl, rfl⟩
    · tauto
  · refine ⟨([fetchingRecord, sizeRecord W H total] ++
        (List.range total).map (fun i => tileRecord (0 + 1 + i) total))
          ++ [savingRecord], last,
      by rw [htr]; simp [List.append_assoc], ?_, ?_⟩
    · intro r hr
      rcases List.mem_append.mp hr with h2 | h2
      · rcases List.mem_append.mp h2 with h3 | h3
        · rcases (by simpa using h3 : r = fetchingRecord ∨ r = sizeRecord W H total)
            with rfl | rfl
          · exact ⟨rfl, rfl⟩
          · exact ⟨rfl, rfl⟩
        · simp only [List.mem_map, List.mem_range] at h3
          obtain ⟨i, _, hfi⟩ := h3
          subst hfi
          exact ⟨rfl, rfl⟩
      · have hrs : r = savingRecord := by simpa using h2
        subst hrs
        exact ⟨rfl, rfl⟩
    · tauto

/-- The element of `L ++ [last]` at any valid index is either a member of
`L` or the final element at the final position. -/
theorem append_singleton_get (L : List ProgressRecord) (last : ProgressRecord)
    (i : Nat) (h : i < (L ++ [last]).length) :
    (L ++ [last]).get ⟨i, h⟩ ∈ L ∨
      ((L ++ [last]).get ⟨i, h⟩ = last ∧ i + 1 = (L ++ [last]).length) := by
  rw [List.get_eq_getElem]
  rcases Nat.lt_or_ge i L.length with hiL | hiL
  · left
    rw [List.getElem_append_left hiL]
    exact List.getElem_mem hiL
  · right
    have hlen : (L ++ [last]).length = L.length + 1 := by simp
    have hieq : i = L.length := by omega
    subst hieq
    exact ⟨List.getElem_concat_length L last _ rfl _, by simp⟩

/-- A record with `completed` set is the final record of its trace and
reports progress 100. -/
theorem completed_is_final (id : List Char) (env : Env) :
    ∀ r ∈ (download_and_stitch_image id env).1, r.completed = true →
      (download_and_stitch_image id env).1.getLast? = some r ∧
        r.progress = some 100 := by
  obtain ⟨L, last, htr, hL, hl⟩ := trace_split id env
  intro r hr hc
  rw [htr] at hr ⊢
  rcases List.mem_append.mp hr with hrL | hrl
  · exact absurd hc (by simp [(hL r hrL).1])
  · have hreq : r = last := by simpa using hrl
    subst hreq
    refine ⟨List.getLast?_concat L, ?_⟩
    rcases hl with rfl | rfl | rfl | rfl
    · simp [invalidIdRecord, update_progress] at hc
    · simp [netErrorRecord, update_progress] at hc
    · simp [genErrorRecord, update_progress] at hc
    · rfl

/-- C6: in every session the sequence of progress values written to the
tracker is non-decreasing, and any record with `completed=true` is the
final record of the session and carries progress 100. -/
theorem progress_monotone (id : List Char) (env : Env) :
    List.Chain' (· ≤ ·) (progressValues (download_and_stitch_image id env).1) ∧
    ∀ r ∈ (download_and_stitch_image id env).1, r.completed = true →
      (download_and_stitch_image id env).1.getLast? = some r ∧
        r.progress = some 100 := by
  refine ⟨?_, completed_is_final id env⟩
  rw [List.chain'_iff_pairwise]
  obtain ⟨W, H, total, m, last, hm, hcase⟩ := trace_cases id env
  rcases hcase with ⟨htr, hl⟩ | ⟨htr, hl⟩ | ⟨htr, hl⟩
  · rw [htr]
    have hpn : last.progress = none := by
      rcases hl with rfl | rfl | rfl <;> rfl
    have hv : progressValues [fetchingRecord, last] = [0] := by
      simp [progressValues, fetchingRecord, update_progress, hpn]
    rw [hv]
    simp
  · rw [htr, progressValues_trace_shape]
    have hpn : progressValues [last] = [] := by
      rcases hl with rfl | rfl <;> rfl
    rw [hpn]
    exact progress_master_sorted total m hm [] (by simp) (by simp)
  · rw [htr, progressValues_trace_shape]
    rcases hl with rfl | rfl
    · have hv : progressValues [savingRecord, doneRecord (output_file id)] =
          [95, 100] := rfl
      rw [hv]
      refine progress_master_sorted total total le_rfl [95, 100] ?_ ?_
      · norm_num [List.pairwise_cons]
      · intro b hb
        rcases (by simpa using hb : b = (95 : ℚ) ∨ b = 100) with rfl | rfl <;> norm_num
    · have hv : progressValues [savingRecord, genErrorRecord env.excStr] = [95] := rfl
      rw [hv]
      refine progress_master_sorted total total le_rfl [95] (by simp) ?_
      intro b hb
      rcases (by simpa using hb : b = (95 : ℚ)) with rfl
      norm_num

/-- C6 (witness): the concrete successful two-tile session has a
non-decreasing progress sequence and its completed record is final with
progress 100. -/
theorem progress_monotone_witness :
    List.Chain' (· ≤ ·) (progressValues (download_and_stitch_image ['a'] envAllOk).1) ∧
    ((download_and_stitch_image ['a'] envAllOk).1.getLast? =
        some (doneRecord (output_file ['a'])) ∧
      (doneRecord (output_file ['a'])).progress = some 100) :=
  ⟨(progress_monotone ['a'] envAllOk).1,
    (progress_monotone ['a'] envAllOk).2 (doneRecord (output_file ['a']))
      (by decide) rfl⟩

/-- C7: every terminal record — `completed` set or `error` present — sits
at the final position of its session's trace (no later update occurs),
and satisfies exactly one of the two terminal shapes: completed with an
artifact path and no error, or an error with no completion and no
artifact path. -/
theorem terminal_is_final (id : List Char) (env : Env) (i : Nat)
    (h : i < (download_and_stitch_image id env).1.length)
    (r : ProgressRecord)
    (hr : (download_and_stitch_image id env).1.get ⟨i, h⟩ = r)
    (hterm : r.completed = true ∨ r.error ≠ none) :
    i + 1 = (download_and_stitch_image id env).1.length ∧
    ((r.completed = true ∧ r.file_path ≠ none ∧ r.error = none) ∨
      (r.error ≠ none ∧ r.completed = false ∧ r.file_path = none)) ∧
    ¬((r.completed = true ∧ r.file_path ≠ none ∧ r.error = none) ∧
      (r.error ≠ none ∧ r.completed = false ∧ r.file_path = none)) := by
  obtain ⟨L, last, htr, hL, hl⟩ := trace_split id env
  revert hr h
  rw [htr]
  intro h hr
  rcases append_singleton_get L last i h with hmem | ⟨hlast, hlen⟩
  · exfalso
    rw [hr] at hmem
    obtain ⟨hc, he⟩ := hL r hmem
    rcases hterm with ht | ht
    · rw [hc] at ht
      simp at ht
    · exact ht he
  · rw [hr] at hlast
    subst hlast
    refine ⟨hlen, ?_, ?_⟩
    · rcases hl with rfl | rfl | rfl | rfl
      · exact Or.inr ⟨by simp [invalidIdRecord, update_progress], rfl, rfl⟩
      · exact Or.inr ⟨by simp [netErrorRecord, update_progress], rfl, rfl⟩
      · exact Or.inr ⟨by simp [genErrorRecord, update_progress], rfl, rfl⟩
      · exact Or.inl ⟨rfl, by simp [doneRecord, update_progress], rfl⟩
    · rintro ⟨⟨hc1, _, _⟩, _, hc2, _⟩
      rw [hc1] at hc2
      simp at hc2

/-- C7 (witness): the completed record of the concrete successful session
is terminal, final, and of the completed shape. -/
theorem terminal_is_final_witness :
    5 + 1 = (download_and_stitch_image ['a'] envAllOk).1.length ∧
    (((doneRecord (output_file ['a'])).completed = true ∧
        (doneRecord (output_file ['a'])).file_path ≠ none ∧
        (doneRecord (output_file ['a'])).error = none) ∨
      ((doneRecord (output_file ['a'])).error ≠ none ∧
        (doneRecord (output_file ['a'])).completed = false ∧
        (doneRecord (output_file ['a'])).file_path = none)) ∧
    ¬(((doneRecord (output_file ['a'])).completed = true ∧
        (doneRecord (output_file ['a'])).file_path ≠ none ∧
        (doneRecord (output_file ['a'])).error = none) ∧
      ((doneRecord (output_file ['a'])).error ≠ none ∧
        (doneRecord (output_file ['a'])).completed = false ∧
        (doneRecord (output_file ['a'])).file_path = none)) :=
  terminal_is_final ['a'] envAllOk 5 (by decide) (doneRecord (output_file ['a']))
    (by decide) (Or.inl rfl)

/-! #### Stitching without a dimension check, and empty tile bodies -/

/-- An environment whose single planned tile (100 by 100) decodes to a
7-by-9 image. -/
def envMismatch : Env :=
  { meta := .ok 100 100 100 100
    fetch := fun _ => some (some [1])
    decode := fun _ => some (7, 9)
    saveOk := true
    excStr := "e" }

/-- C2 (counterexample): in a session whose single planned tile has
extent 100 by 100 but decodes to a 7-by-9 image, the mismatched tile is
pasted onto the canvas with its decoded extent and the session completes
successfully — no dimension mismatch fails the session. -/
theorem stitch_no_dimension_check_counterexample :
    (download_and_stitch_image ['a'] envMismatch).2 = [(0, 0, 7, 9)] ∧
    (download_and_stitch_image ['a'] envMismatch).1.getLast? =
      some (doneRecord (output_file ['a'])) := by
  decide

/-- C2 (amended): the stitcher performs no dimension check. A fetched
tile whose nonempty body decodes — to any dimensions whatsoever, whether
or not they match the planned TileSpec extent — is pasted into the canvas
at the planned origin with its own decoded extent, the tile's progress
record is written, and the loop continues; the code raises no
`StitchError` (none exists in the source). -/
theorem stitch_pastes_any_dimensions (env : Env) (total k : Nat)
    (t : Nat × Nat × Nat × Nat) (rest : List (Nat × Nat × Nat × Nat))
    (bs : List Nat) (d : Nat × Nat)
    (hf : env.fetch k = some (some bs)) (hbs : bs.isEmpty = false)
    (hd : env.decode bs = some d) :
    tile_loop env total (t :: rest) k =
      (tileRecord (k + 1) total :: (tile_loop env total rest (k + 1)).1,
        (t.1, t.2.1, d.1, d.2) :: (tile_loop env total rest (k + 1)).2.1,
        (tile_loop env total rest (k + 1)).2.2) := by
  simp [tile_loop, hf, hbs, hd]

/-- C2 (witness): the mismatched 7-by-9 tile of the concrete environment
is pasted at the planned origin. -/
theorem stitch_pastes_any_dimensions_witness :
    tile_loop envMismatch 1 [(0, 0, 100, 100)] 0 =
      (tileRecord (0 + 1) 1 :: (tile_loop envMismatch 1 [] (0 + 1)).1,
        ((0 : Nat), (0 : Nat), (7 : Nat), (9 : Nat))
          :: (tile_loop envMismatch 1 [] (0 + 1)).2.1,
        (tile_loop envMismatch 1 [] (0 + 1)).2.2) :=
  stitch_pastes_any_dimensions envMismatch 1 0 (0, 0, 100, 100) [] [1] (7, 9)
    rfl rfl rfl

/-- C10: a tile fetch that returns a success response with an empty body
is treated as a failure: the loop pastes nothing for that tile and raises
(line 128), aborting through the `RequestException` handler (first
conjunct); a session whose first tile comes back empty therefore ends at
the network-error terminal record — error present, not completed, no
artifact handle — with an empty paste list (second conjunct). -/
theorem empty_body_fails_session :
    (∀ (env : Env) (total k : Nat) (t : Nat × Nat × Nat × Nat)
        (rest : List (Nat × Nat × Nat × Nat)),
      env.fetch k = some (some ([] : List Nat)) →
      tile_loop env total (t :: rest) k =
        ([netErrorRecord env.excStr], [], false)) ∧
    (∀ (id : List Char) (env : Env) (W H tw th : Nat),
      background_valid id = true →
      env.meta = .ok W H tw th →
      0 < tw → 0 < th →
      0 < ceilDiv W tw * ceilDiv H th →
      env.fetch 0 = some (some ([] : List Nat)) →
      download_and_stitch_image id env =
        ([fetchingRecord, sizeRecord W H (ceilDiv W tw * ceilDiv H th),
          netErrorRecord env.excStr], [])) := by
  constructor
  · intro env total k t rest hf
    exact tile_loop_empty_body env total k t rest hf
  · intro id env W H tw th hid hmeta htw hth htotal hf
    have hz : ¬(tw = 0 ∨ th = 0) := by omega
    have hplen : (plan W H tw th).length = ceilDiv W tw * ceilDiv H th :=
      plan_length W H tw th
    obtain ⟨t, rest, hplan⟩ : ∃ t rest, plan W H tw th = t :: rest := by
      cases hp : plan W H tw th with
      | nil => rw [hp] at hplen; simp only [List.length_nil] at hplen; omega
      | cons t rest => exact ⟨t, rest, rfl⟩
    have hloop := tile_loop_empty_body env (ceilDiv W tw * ceilDiv H th) 0 t rest hf
    simp only [download_and_stitch_image, hid, Bool.true_eq_false, if_false, hmeta,
      if_neg hz, hplan, hloop, Bool.false_eq_true, if_false]
    rfl

/-- An environment whose every tile fetch returns a success response with
an empty body. -/
def envEmptyBody : Env :=
  { meta := .ok 1 1 1 1
    fetch := fun _ => some (some [])
    decode := fun _ => none
    saveOk := true
    excStr := "e" }

/-- C10 (witness): the empty-body abort at a concrete tile and session. -/
theorem empty_body_fails_session_witness :
    tile_loop envEmptyBody 1 [(0, 0, 1, 1)] 0 = ([netErrorRecord "e"], [], false) ∧
    download_and_stitch_image ['a'] envEmptyBody =
      ([fetchingRecord, sizeRecord 1 1 (ceilDiv 1 1 * ceilDiv 1 1),
        netErrorRecord "e"], []) :=
  ⟨empty_body_fails_session.1 envEmptyBody 1 0 (0, 0, 1, 1) [] rfl,
    empty_body_fails_session.2 ['a'] envEmptyBody 1 1 1 1 (by decide) rfl
      (by decide) (by decide) (by decide) rfl⟩

/-! ### Polling endpoints (src/app.py lines 175-205)

`download_progress` maps exactly the session identifiers handed out by
`start_download` to their current records; it is modelled as a partial
map, a never-created identifier being absent. -/

/-- The `/progress/<session_id>` endpoint `get_progress` (lines 176-181):
the record as JSON, or 404 "Session not found". -/
def get_progress (store : String → Option ProgressRecord) (sid : String) :
    Except (Nat × String) ProgressRecord :=
  match store sid with
  | none => .error (404, "Session not found")
  | some r => .ok r

/-- The `/download/<session_id>` endpoint `download_file` (lines
184-205): 404 for an unknown session, 400 "Download not completed yet"
when the record is not completed, 404 when the artifact path is absent,
empty or missing on disk, otherwise the file is served. -/
def download_file (store : String → Option ProgressRecord)
    (file_on_disk : String → Bool) (sid : String) :
    Except (Nat × String) String :=
  match store sid with
  | none => .error (404, "Session not found")
  | some r =>
    if r.completed = false then .error (400, "Download not completed yet")
    else
      match r.file_path with
      | none => .error (404, "File not found")
      | some p =>
        if p.isEmpty || !file_on_disk p then .error (404, "File not found")
        else .ok p

/-- C8: both polling endpoints answer 404 "Session not found" for an
identifier absent from the progress map (one never created by
`start_download`), and the artifact endpoint answers 400 "Download not
completed yet" — never file contents — for an existing session whose
record is not completed. -/
theorem session_lookup_errors :
    (∀ (store : String → Option ProgressRecord) (file_on_disk : String → Bool)
        (sid : String),
      store sid = none →
      get_progress store sid = .error (404, "Session not found") ∧
      download_file store file_on_disk sid =
        .error (404, "Session not found")) ∧
    (∀ (store : String → Option ProgressRecord) (file_on_disk : String → Bool)
        (sid : String) (r : ProgressRecord),
      store sid = some r → r.completed = false →
      download_file store file_on_disk sid =
        .error (400, "Download not completed yet")) := by
  constructor
  · intro store file_on_disk sid h
    constructor
    · simp [get_progress, h]
    · simp [download_file, h]
  · intro store file_on_disk sid r h hc
    simp [download_file, h, hc]

/-- C8 (witness): the 404 and 400 answers at a concrete store. -/
theorem session_lookup_errors_witness :
    (get_progress (fun _ => none) "s" = .error (404, "Session not found") ∧
      download_file (fun _ => none) (fun _ => true) "s" =
        .error (404, "Session not found")) ∧
    download_file (fun _ => some fetchingRecord) (fun _ => true) "s" =
      .error (400, "Download not completed yet") :=
  ⟨session_lookup_errors.1 (fun _ => none) (fun _ => true) "s" rfl,
    session_lookup_errors.2 (fun _ => some fetchingRecord) (fun _ => true) "s"
      fetchingRecord rfl rfl⟩

end App
